import Mathlib

/-!
A shallow embedding of the `ts-pool` resource pool (`src/index.ts`) and proofs
about its behaviour.

Modelling conventions:
* Resources (the opaque `T` values handed out by the factory) and pending
  borrow requests (the `Deferred` handles in `outstandingBorrows`) are both
  modelled as natural numbers.  Resource values stand for object references,
  which are always truthy in JavaScript.
* `Map<T, ObjectInfo>` is modelled as an association list from resource to its
  `created` timestamp; `Map.set` on a fresh key appends, `Map.delete` filters
  the key out, `Map.get` is `List.lookup`.
* Timestamps (`Date.now()`) are naturals passed in explicitly as `now`.
* Each operation is a pure function from the pool state to an `OpResult`
  carrying the post-state, the instrumentation events fired (in order), the
  resources handed to `dispose`, and either the operation's value or the
  error it throws.  A thrown error leaves exactly the mutations that happened
  before the `throw` in the returned state, as in the source.
* The asynchronous pieces of a `sync` pass (each `_create().then(addResource)`
  continuation) are modelled as separate `addResource` steps; `syncPass`
  models the synchronous part of `sync()` and reports how many factory
  `create()` calls it issues.
-/

namespace TsPool

/-- The `RequestCancellationReason` enum of the source. -/
inductive CancellationReason
  | Destroyed
  | MaxQueuedRequestsExceeded
  | Timeout
deriving DecidableEq, Repr

/-- The error taxonomy of `src/errors.ts`, plus `DuplicateResource` for the
plain `Error` thrown by `addResource` on a duplicate registration. -/
inductive PoolError
  | PoolDestroyed
  | Timeout
  | MaxOutstandingBorrows
  | UnknownResource
  | DuplicateResource
deriving DecidableEq, Repr

/-- The optional instrumentation hooks of the source, as events. -/
inductive Event
  | onBorrow
  | onRelease
  | onRequestEnqueued
  | onRequestDequeued
  | onRequestCancelled (reason : CancellationReason)
deriving DecidableEq, Repr

/-- The pool `Options` relevant to the engine's control flow.  `none` models
an absent (`undefined`) option. -/
structure Options where
  minResources : Nat
  maxResources : Nat
  resourceMaxAge : Option Nat
  maxOutstandingBorrows : Option Nat
deriving DecidableEq, Repr

/-- The mutable fields of the `Pool` class.  `knownResources` maps a resource
to its `created` timestamp; `availableResources` is the idle queue (oldest
first); `outstandingBorrows` holds the ids of queued borrow requests (oldest
first); `nextRequestId` is the id the next enqueued request will receive, so
ids are issued in enqueue order. -/
structure PoolState where
  isDestroying : Bool
  syncTimerActive : Bool
  knownResources : List (Nat × Nat)
  availableResources : List Nat
  outstandingBorrows : List Nat
  nextRequestId : Nat
deriving DecidableEq, Repr

/-- The outcome of a successful `borrow` call's synchronous part: either an
immediate loan of an idle resource, or a `PendingRequest` enqueued with the
given id. -/
inductive BorrowOutcome
  | lent (rsc : Nat)
  | enqueued (reqId : Nat)
deriving DecidableEq, Repr

/-- The observable result of one pool operation: post-state, events fired (in
order), resources passed to `dispose`, and the returned value or thrown
error. -/
structure OpResult (α : Type) where
  state : PoolState
  events : List Event
  disposed : List Nat
  result : Except PoolError α
deriving Repr

/-- `resourceIsExpired` of the source: looks the resource up in
`knownResources`, throwing `UnknownResourceError` if absent; with
`resourceMaxAge` destructured to `Infinity` when unset, the age comparison
`Date.now() - info.created > resourceMaxAge` is then always false. -/
def resourceIsExpired (o : Options) (known : List (Nat × Nat)) (now rsc : Nat) :
    Except PoolError Bool :=
  match known.lookup rsc with
  | none => .error .UnknownResource
  | some created =>
      match o.resourceMaxAge with
      | none => .ok false
      | some m => .ok (decide (m < now - created))

/-- The age guard of `returnResource`:
`resourceMaxAge && Date.now() - info.created > resourceMaxAge`.  Unlike
`resourceIsExpired`, a `resourceMaxAge` of `0` is falsy here. -/
def agedOut (o : Options) (created now : Nat) : Bool :=
  match o.resourceMaxAge with
  | none => false
  | some m => m != 0 && decide (m < now - created)

/-- `removeResource` of the source: deletes the resource from
`knownResources` and calls `_dispose` on it.  The source then computes
`idx = availableResources.indexOf(rsc)` and, when `idx > -1`, calls
`availableResources.slice(idx, 1)`; `Array.prototype.slice` returns a copy
and does not mutate, so `availableResources` is left unchanged. -/
def removeResource (s : PoolState) (rsc : Nat) : PoolState × List Nat :=
  ({ s with knownResources := s.knownResources.filter (fun p => p.1 != rsc) },
   [rsc])

/-- `maybeLendResource` of the source: shift the oldest waiting request and
resolve it with the resource (firing dequeue and borrow notifications), or
push the resource onto `availableResources` when no request waits.  Returns
the id of the fulfilled request, if any. -/
def maybeLendResource (s : PoolState) (rsc : Nat) :
    PoolState × List Event × Option Nat :=
  match s.outstandingBorrows with
  | [] =>
      ({ s with availableResources := s.availableResources ++ [rsc] },
       [], none)
  | d :: rest =>
      ({ s with outstandingBorrows := rest },
       [Event.onRequestDequeued, Event.onBorrow], some d)

/-- `returnResource` of the source (the release function paired with every
loan): throws `UnknownResourceError` when the resource is not in
`knownResources`; fires `onRelease`; removes and disposes the resource when
aged out; otherwise hands it to `maybeLendResource`.  The returned value is
the id of the request the resource was lent to, if any. -/
def returnResource (o : Options) (now : Nat) (s : PoolState) (rsc : Nat) :
    OpResult (Option Nat) :=
  match s.knownResources.lookup rsc with
  | none => ⟨s, [], [], .error .UnknownResource⟩
  | some created =>
      if agedOut o created now then
        let r := removeResource s rsc
        ⟨r.1, [Event.onRelease], r.2, .ok none⟩
      else
        let r := maybeLendResource s rsc
        ⟨r.1, Event.onRelease :: r.2.1, [], .ok r.2.2⟩

/-- The enqueue step of `borrow`: push a fresh `Deferred` onto
`outstandingBorrows` and fire the enqueued notification. -/
def enqueueRequest (s : PoolState) : PoolState × List Event × BorrowOutcome :=
  ({ s with
      outstandingBorrows := s.outstandingBorrows ++ [s.nextRequestId]
      nextRequestId := s.nextRequestId + 1 },
   [Event.onRequestEnqueued], .enqueued s.nextRequestId)

/-- The synchronous part of `borrow`: fail with `PoolDestroyedError` while
destroying; shift the head of `availableResources`; if the shifted resource
is expired, remove and dispose it and fall through to enqueueing a request
(`resourceIsExpired` may also throw `UnknownResourceError`, which propagates
with the shift already applied); otherwise return the resource as a loan.
With nothing available, enqueue a request. -/
def borrow (o : Options) (now : Nat) (s : PoolState) : OpResult BorrowOutcome :=
  if s.isDestroying then ⟨s, [], [], .error .PoolDestroyed⟩
  else
    match s.availableResources with
    | [] =>
        let r := enqueueRequest s
        ⟨r.1, r.2.1, [], .ok r.2.2⟩
    | rsc :: rest =>
        let s1 := { s with availableResources := rest }
        match resourceIsExpired o s1.knownResources now rsc with
        | .error e => ⟨s1, [], [], .error e⟩
        | .ok true =>
            let rm := removeResource s1 rsc
            let r := enqueueRequest rm.1
            ⟨r.1, r.2.1, rm.2, .ok r.2.2⟩
        | .ok false => ⟨s1, [Event.onBorrow], [], .ok (.lent rsc)⟩

/-- The body of the borrow-timeout timer of the source.  It computes
`idx = outstandingBorrows.indexOf(future)` and guards on `idx !== undefined`;
`indexOf` returns `-1` when absent, never `undefined`, so the guard is always
taken: the `Timeout` cancellation and dequeue notifications fire and
`splice(idx, 1)` runs unconditionally.  When the request is absent,
`splice(-1, 1)` removes the last element of `outstandingBorrows`.  The
returned boolean says whether the borrow promise settles with `TimeoutError`
(the `reject` only wins the race while the request was still unfulfilled,
i.e. still queued). -/
def timerFires (s : PoolState) (reqId : Nat) : PoolState × List Event × Bool :=
  let evs := [Event.onRequestCancelled .Timeout, Event.onRequestDequeued]
  match s.outstandingBorrows.indexOf? reqId with
  | some i =>
      ({ s with outstandingBorrows := s.outstandingBorrows.eraseIdx i },
       evs, true)
  | none =>
      ({ s with outstandingBorrows := s.outstandingBorrows.dropLast },
       evs, false)

/-- `addResource` of the source (the continuation run when a factory
`create()` resolves): throws when the resource is already in
`knownResources` — before any mutation — otherwise records it with the
current timestamp and hands it to `maybeLendResource`. -/
def addResource (now : Nat) (s : PoolState) (rsc : Nat) :
    OpResult (Option Nat) :=
  match s.knownResources.lookup rsc with
  | some _ => ⟨s, [], [], .error .DuplicateResource⟩
  | none =>
      let s1 := { s with knownResources := s.knownResources ++ [(rsc, now)] }
      let r := maybeLendResource s1 rsc
      ⟨r.1, r.2.1, [], .ok r.2.2⟩

/-- `destroy` of the source: set the destroying flag, clear the interval
timer, splice out and reject every queued request with `PoolDestroyedError`
(firing `Destroyed` cancellation and dequeue notifications for each), then
splice out every idle resource and run `removeResource` on it.  The value is
the list of rejected request ids paired with the error each was rejected
with. -/
def destroy (s : PoolState) : OpResult (List (Nat × PoolError)) :=
  let rejected := s.outstandingBorrows
  let drained := s.availableResources
  ⟨{ isDestroying := true
     syncTimerActive := false
     knownResources := s.knownResources.filter (fun p => !(drained.contains p.1))
     availableResources := []
     outstandingBorrows := []
     nextRequestId := s.nextRequestId },
   rejected.flatMap
     (fun _ => [Event.onRequestCancelled .Destroyed, Event.onRequestDequeued]),
   drained,
   .ok (rejected.map (fun q => (q, PoolError.PoolDestroyed)))⟩

/-- The expiry filter at the top of `sync()`: walk `availableResources`,
removing and disposing every expired resource (mutating `knownResources` as
it goes).  Returns the updated `knownResources`, the disposed resources, and
either the surviving idle list or the `UnknownResourceError` thrown by
`resourceIsExpired` when an idle resource is not in `knownResources` — in
that case the deletions made so far persist but the assignment to
`availableResources` never happens. -/
def expireAvail (o : Options) (now : Nat) :
    List Nat → List (Nat × Nat) →
    List (Nat × Nat) × List Nat × Except PoolError (List Nat)
  | [], known => (known, [], .ok [])
  | rsc :: rest, known =>
      match known.lookup rsc with
      | none => (known, [], .error .UnknownResource)
      | some created =>
          let expired : Bool :=
            match o.resourceMaxAge with
            | none => false
            | some m => decide (m < now - created)
          if expired then
            let r := expireAvail o now rest (known.filter (fun p => p.1 != rsc))
            (r.1, rsc :: r.2.1, r.2.2)
          else
            let r := expireAvail o now rest known
            (r.1, r.2.1, r.2.2.map (fun kept => rsc :: kept))

/-- The clamp function in the spec's words: `clamp(x, lo, hi) = max(lo,
min(x, hi))`. -/
def clampSpec (x lo hi : Nat) : Nat := max lo (min x hi)

/-- The synchronous part of `sync()` (which never consults `isDestroying`):
expire idle resources, compute how many factory `create()` calls to issue
(`Math.max(max(minResources, min(currentSize + deficit, maxResources)) -
currentSize, 0)`, natural subtraction), and reject queued requests beyond
`maxOutstandingBorrows` (destructured to `Infinity` when unset) from the
tail with `MaxOutstandingBorrowsError`.  The value is the number of creations
issued paired with the rejected requests; the `addResource` continuation of
each creation is a separate step. -/
def syncPass (o : Options) (now : Nat) (s : PoolState) :
    OpResult (Nat × List (Nat × PoolError)) :=
  let e := expireAvail o now s.availableResources s.knownResources
  match e.2.2 with
  | .error err => ⟨{ s with knownResources := e.1 }, [], e.2.1, .error err⟩
  | .ok kept =>
      let s1 := { s with availableResources := kept, knownResources := e.1 }
      let currentSize := s1.knownResources.length
      let deficit := s1.outstandingBorrows.length
      let requestedSize :=
        max o.minResources (min (currentSize + deficit) o.maxResources)
      let toCreate := requestedSize - currentSize
      match o.maxOutstandingBorrows with
      | none => ⟨s1, [], e.2.1, .ok (toCreate, [])⟩
      | some maxReq =>
          if s1.outstandingBorrows.length > maxReq then
            let cut := s1.outstandingBorrows.drop maxReq
            ⟨{ s1 with outstandingBorrows := s1.outstandingBorrows.take maxReq },
             cut.flatMap (fun _ =>
               [Event.onRequestCancelled .MaxQueuedRequestsExceeded,
                Event.onRequestDequeued]),
             e.2.1,
             .ok (toCreate, cut.map (fun q => (q, PoolError.MaxOutstandingBorrows)))⟩
          else ⟨s1, [], e.2.1, .ok (toCreate, [])⟩

/-- Looking a key up after filtering it out of an association list yields
nothing. -/
lemma lookup_filter_ne (l : List (Nat × Nat)) (r : Nat) :
    (l.filter (fun p => p.1 != r)).lookup r = none := by
  induction l with
  | nil => simp
  | cons p t ih =>
      by_cases h : p.1 = r
      · simp [List.filter_cons, h, ih]
      · have hne : (r == p.1) = false :=
          beq_eq_false_iff_ne.mpr (fun hh => h hh.symm)
        simp [List.filter_cons, h, List.lookup, hne, ih]

/-- Counting each element of the per-request event pair emitted for a list of
rejected requests. -/
lemma count_cancel_pair (l : List Nat) (r : CancellationReason) :
    ((l.flatMap (fun _ =>
        [Event.onRequestCancelled r, Event.onRequestDequeued])).count
      (Event.onRequestCancelled r) = l.length) ∧
    ((l.flatMap (fun _ =>
        [Event.onRequestCancelled r, Event.onRequestDequeued])).count
      Event.onRequestDequeued = l.length) := by
  induction l with
  | nil => simp
  | cons h t ih =>
      refine ⟨?_, ?_⟩ <;>
        simp [List.flatMap_cons, List.count_append, List.count_cons, ih.1, ih.2,
          Nat.add_comm]

/-- C1: the borrow-timeout timer, fired for a request that is no longer in the
wait queue (here request 2, with requests 5 and 7 still waiting), is not a
no-op: because the source guards on `indexOf(...) !== undefined` — which is
always true — it still fires the `Timeout` cancellation and dequeue
notifications and `splice(-1, 1)` removes the newest queued request 7.  The
spec requires a no-op in this case. -/
theorem timer_fires_absent_request_not_noop :
    timerFires ⟨false, true, [], [], [5, 7], 8⟩ 2 =
      (⟨false, true, [], [], [5], 8⟩,
       [Event.onRequestCancelled .Timeout, Event.onRequestDequeued], false) :=
  rfl

/-- C2 counterexample: pool with `resourceMaxAge = 10` at time 100, idle queue
`[1, 2]` where resource 1 (created at 0) is expired and resource 2 (created at
95) is fresh.  `borrow` discards resource 1 but then enqueues request 0
instead of retrying and lending resource 2, which stays idle — refuting the
claim that borrow retries once against the remaining idle set. -/
theorem borrow_expired_head_enqueues_concrete :
    (borrow ⟨0, 10, some 10, none⟩ 100
        ⟨false, true, [(1, 0), (2, 95)], [1, 2], [], 0⟩).result
      = .ok (.enqueued 0) ∧
    (borrow ⟨0, 10, some 10, none⟩ 100
        ⟨false, true, [(1, 0), (2, 95)], [1, 2], [], 0⟩).state.availableResources
      = [2] ∧
    (borrow ⟨0, 10, some 10, none⟩ 100
        ⟨false, true, [(1, 0), (2, 95)], [1, 2], [], 0⟩).disposed
      = [1] := ⟨rfl, rfl, rfl⟩

/-- C2 amended: when the oldest idle resource is expired, `borrow` removes and
disposes it and then — without retrying against the remaining idle set —
enqueues a `PendingRequest`, leaving the remaining idle resources in place. -/
theorem borrow_expired_head_no_retry (o : Options) (now : Nat) (s : PoolState)
    (rsc created m : Nat) (rest : List Nat)
    (hd : s.isDestroying = false)
    (ha : s.availableResources = rsc :: rest)
    (hk : s.knownResources.lookup rsc = some created)
    (hm : o.resourceMaxAge = some m)
    (hexp : m < now - created) :
    (borrow o now s).result = .ok (.enqueued s.nextRequestId) ∧
    (borrow o now s).disposed = [rsc] ∧
    (borrow o now s).state.availableResources = rest ∧
    (borrow o now s).state.outstandingBorrows
      = s.outstandingBorrows ++ [s.nextRequestId] ∧
    (borrow o now s).state.knownResources.lookup rsc = none := by
  have hdec : decide (m < now - created) = true := decide_eq_true hexp
  simp only [borrow, hd, ha, resourceIsExpired, hk, hm, hdec,
    Bool.false_eq_true, if_false, removeResource, enqueueRequest]
  exact ⟨trivial, trivial, trivial, trivial, lookup_filter_ne s.knownResources rsc⟩

/-- C2 witness: the amended behaviour at the concrete expired-head pool. -/
theorem borrow_expired_head_no_retry_witness :
    (borrow ⟨0, 10, some 10, none⟩ 100
        ⟨false, true, [(1, 0), (2, 95)], [1, 2], [], 0⟩).result
      = .ok (.enqueued 0) ∧
    (borrow ⟨0, 10, some 10, none⟩ 100
        ⟨false, true, [(1, 0), (2, 95)], [1, 2], [], 0⟩).disposed = [1] ∧
    (borrow ⟨0, 10, some 10, none⟩ 100
        ⟨false, true, [(1, 0), (2, 95)], [1, 2], [], 0⟩).state.availableResources
      = [2] ∧
    (borrow ⟨0, 10, some 10, none⟩ 100
        ⟨false, true, [(1, 0), (2, 95)], [1, 2], [], 0⟩).state.outstandingBorrows
      = [] ++ [0] ∧
    (borrow ⟨0, 10, some 10, none⟩ 100
        ⟨false, true, [(1, 0), (2, 95)], [1, 2], [], 0⟩).state.knownResources.lookup 1
      = none :=
  borrow_expired_head_no_retry ⟨0, 10, some 10, none⟩ 100
    ⟨false, true, [(1, 0), (2, 95)], [1, 2], [], 0⟩ 1 0 10 [2]
    rfl rfl rfl rfl (by decide)

/-- C3: `remove` on an idle resource deletes it from `knownResources` and
disposes it, but the `slice(idx, 1)` in `removeResource` does not mutate, so
the resource is left in `availableResources` — and a later `borrow` that
shifts it throws `UnknownResourceError` instead of it being gone.  The spec
says the resource is removed from the IdleQueue so it can never be lent. -/
theorem remove_leaves_resource_in_idle_queue :
    removeResource ⟨false, true, [(1, 0)], [1], [], 0⟩ 1
      = (⟨false, true, [], [1], [], 0⟩, [1]) ∧
    (borrow ⟨0, 10, none, none⟩ 5
        (removeResource ⟨false, true, [(1, 0)], [1], [], 0⟩ 1).1).result
      = .error .UnknownResource := ⟨rfl, rfl⟩

/-- C4: `sync()` never consults `isDestroying`, so a sync pass that runs after
`destroy()` (for example the startup sync the constructor schedules, which
`destroy` does not cancel) still issues factory creations: on a destroyed
empty pool with `minResources = 1` it issues exactly one `create()` call.
The spec says no resource is ever created once the pool is `Destroying`. -/
theorem sync_creates_after_destroy :
    (⟨true, false, [], [], [], 0⟩ : PoolState).isDestroying = true ∧
    (syncPass ⟨1, 2, none, none⟩ 0 ⟨true, false, [], [], [], 0⟩).result
      = .ok (1, []) := ⟨rfl, rfl⟩

/-- C5: `destroy` sets the destroying flag, cancels the interval timer,
rejects every queued request with `PoolDestroyedError` — firing exactly one
`Destroyed` cancellation and one dequeue notification per rejected request —
and disposes every idle resource, leaving both queues empty. -/
theorem destroy_rejects_all_and_drains (s : PoolState) :
    (destroy s).state.isDestroying = true ∧
    (destroy s).state.syncTimerActive = false ∧
    (destroy s).state.outstandingBorrows = [] ∧
    (destroy s).state.availableResources = [] ∧
    (destroy s).result
      = .ok (s.outstandingBorrows.map (fun q => (q, PoolError.PoolDestroyed))) ∧
    (destroy s).events
      = s.outstandingBorrows.flatMap
          (fun _ => [Event.onRequestCancelled .Destroyed,
                     Event.onRequestDequeued]) ∧
    (destroy s).events.count (Event.onRequestCancelled .Destroyed)
      = s.outstandingBorrows.length ∧
    (destroy s).events.count Event.onRequestDequeued
      = s.outstandingBorrows.length ∧
    (destroy s).disposed = s.availableResources := by
  refine ⟨rfl, rfl, rfl, rfl, rfl, rfl, ?_, ?_, rfl⟩
  · exact (count_cancel_pair s.outstandingBorrows .Destroyed).1
  · exact (count_cancel_pair s.outstandingBorrows .Destroyed).2

/-- C6: in a sync pass whose expiry step succeeds, the number of factory
creations issued equals `max(clamp(currentKnownSize + waitQueueLength,
minResources, maxResources) - currentKnownSize, 0)` with both sizes taken
after the expiry step (the wait queue is untouched by expiry). -/
theorem sync_creation_count (o : Options) (now : Nat) (s : PoolState)
    (kn2 : List (Nat × Nat)) (disp kept : List Nat)
    (hbounds : o.minResources ≤ o.maxResources)
    (he : expireAvail o now s.availableResources s.knownResources
            = (kn2, disp, .ok kept)) :
    ∃ cc rej, (syncPass o now s).result = .ok (cc, rej) ∧
      (cc : ℤ) = max ((clampSpec (kn2.length + s.outstandingBorrows.length)
          o.minResources o.maxResources : ℤ) - (kn2.length : ℤ)) 0 := by
  have hcc : ∀ n : Nat, n = kn2.length →
      ((clampSpec (n + s.outstandingBorrows.length)
          o.minResources o.maxResources - n : ℕ) : ℤ)
        = max ((clampSpec (kn2.length + s.outstandingBorrows.length)
            o.minResources o.maxResources : ℤ) - (kn2.length : ℤ)) 0 := by
    intro n hn
    subst hn
    unfold clampSpec
    omega
  simp only [syncPass, he, clampSpec]
  cases o.maxOutstandingBorrows with
  | none => exact ⟨_, _, rfl, hcc kn2.length rfl⟩
  | some maxReq =>
      by_cases hq : kn2.length < maxReq ∨ ¬ s.outstandingBorrows.length > maxReq
      all_goals
        simp only []
        split
        · exact ⟨_, _, rfl, hcc kn2.length rfl⟩
        · exact ⟨_, _, rfl, hcc kn2.length rfl⟩

/-- C6 witness: the creation-count formula at a concrete empty pool with
`minResources = 1`, `maxResources = 3`. -/
theorem sync_creation_count_witness :
    ∃ cc rej,
      (syncPass ⟨1, 3, none, none⟩ 0 ⟨false, true, [], [], [], 0⟩).result
        = .ok (cc, rej) ∧
      (cc : ℤ) = max ((clampSpec (List.length ([] : List (Nat × Nat))
          + List.length ([] : List Nat)) 1 3 : ℤ)
        - (List.length ([] : List (Nat × Nat)) : ℤ)) 0 :=
  sync_creation_count ⟨1, 3, none, none⟩ 0 ⟨false, true, [], [], [], 0⟩
    [] [] [] (by decide) rfl

/-- C7: the release function.  If the resource is unknown it fails with
`UnknownResourceError` and the pool state is unchanged (no events, no
disposal).  If `resourceMaxAge` is set to a positive value the resource's age
exceeds, the resource is removed from `knownResources` and disposed, not
re-pooled.  Otherwise, with a non-empty wait queue the resource is handed to
the oldest waiting request, firing release, dequeue and borrow notifications;
with an empty queue it is appended to `availableResources`. -/
theorem release_resource_cases (o : Options) (now : Nat) (s : PoolState)
    (rsc : Nat) :
    (s.knownResources.lookup rsc = none →
      returnResource o now s rsc = ⟨s, [], [], .error .UnknownResource⟩) ∧
    (∀ created m, s.knownResources.lookup rsc = some created →
      o.resourceMaxAge = some m → 0 < m → m < now - created →
      returnResource o now s rsc
        = ⟨(removeResource s rsc).1, [Event.onRelease], [rsc], .ok none⟩ ∧
      (removeResource s rsc).1.knownResources.lookup rsc = none ∧
      (removeResource s rsc).1.availableResources = s.availableResources) ∧
    (∀ created d rest, s.knownResources.lookup rsc = some created →
      agedOut o created now = false →
      s.outstandingBorrows = d :: rest →
      returnResource o now s rsc
        = ⟨{ s with outstandingBorrows := rest },
           [Event.onRelease, Event.onRequestDequeued, Event.onBorrow], [],
           .ok (some d)⟩) ∧
    (∀ created, s.knownResources.lookup rsc = some created →
      agedOut o created now = false →
      s.outstandingBorrows = [] →
      returnResource o now s rsc
        = ⟨{ s with availableResources := s.availableResources ++ [rsc] },
           [Event.onRelease], [], .ok none⟩) := by
  refine ⟨?_, ?_, ?_, ?_⟩
  · intro hk
    simp [returnResource, hk]
  · intro created m hk hm hpos hage
    have haged : agedOut o created now = true := by
      simp [agedOut, hm, hage]
      omega
    refine ⟨?_, lookup_filter_ne s.knownResources rsc, rfl⟩
    simp [returnResource, hk, haged, removeResource]
  · intro created d rest hk haged hq
    simp [returnResource, hk, haged, maybeLendResource, hq]
  · intro created hk haged hq
    simp [returnResource, hk, haged, maybeLendResource, hq]

/-- C7 witness: the four release branches at concrete pools — unknown
resource, aged-out resource, waiting borrower, and empty queue. -/
theorem release_resource_cases_witness :
    (returnResource ⟨0, 4, none, none⟩ 0 ⟨false, true, [], [], [], 0⟩ 9
      = ⟨⟨false, true, [], [], [], 0⟩, [], [], .error .UnknownResource⟩) ∧
    (returnResource ⟨0, 4, some 10, none⟩ 100 ⟨false, true, [(1, 0)], [], [], 0⟩ 1
      = ⟨(removeResource ⟨false, true, [(1, 0)], [], [], 0⟩ 1).1,
         [Event.onRelease], [1], .ok none⟩) ∧
    (returnResource ⟨0, 4, none, none⟩ 0 ⟨false, true, [(1, 0)], [], [6], 7⟩ 1
      = ⟨{ (⟨false, true, [(1, 0)], [], [6], 7⟩ : PoolState) with
            outstandingBorrows := [] },
         [Event.onRelease, Event.onRequestDequeued, Event.onBorrow], [],
         .ok (some 6)⟩) ∧
    (returnResource ⟨0, 4, none, none⟩ 0 ⟨false, true, [(1, 0)], [], [], 0⟩ 1
      = ⟨{ (⟨false, true, [(1, 0)], [], [], 0⟩ : PoolState) with
            availableResources := [] ++ [1] },
         [Event.onRelease], [], .ok none⟩) :=
  ⟨(release_resource_cases ⟨0, 4, none, none⟩ 0
      ⟨false, true, [], [], [], 0⟩ 9).1 rfl,
   ((release_resource_cases ⟨0, 4, some 10, none⟩ 100
      ⟨false, true, [(1, 0)], [], [], 0⟩ 1).2.1 0 10 rfl rfl
      (by decide) (by decide)).1,
   (release_resource_cases ⟨0, 4, none, none⟩ 0
      ⟨false, true, [(1, 0)], [], [6], 7⟩ 1).2.2.1 0 6 [] rfl rfl rfl,
   (release_resource_cases ⟨0, 4, none, none⟩ 0
      ⟨false, true, [(1, 0)], [], [], 0⟩ 1).2.2.2 0 rfl rfl rfl⟩

/-- C9: on an active pool whose idle-queue head is not a key of
`knownResources` — a state `remove` produces, since it deletes only the
`knownResources` entry — `borrow` throws `UnknownResourceError`: no loan is
made, no request is enqueued, no notification fires, and the head has been
shifted off the idle queue. -/
theorem borrow_unknown_idle_head_throws (o : Options) (now : Nat)
    (s : PoolState) (rsc : Nat) (rest : List Nat)
    (hd : s.isDestroying = false)
    (ha : s.availableResources = rsc :: rest)
    (hk : s.knownResources.lookup rsc = none) :
    (borrow o now s).result = .error .UnknownResource ∧
    (borrow o now s).state.outstandingBorrows = s.outstandingBorrows ∧
    (borrow o now s).events = [] ∧
    (borrow o now s).state.availableResources = rest := by
  simp [borrow, hd, ha, resourceIsExpired, hk]

/-- C9 witness: after `remove` of the idle, known resource 3, borrowing from
the resulting pool throws `UnknownResourceError`. -/
theorem borrow_unknown_idle_head_throws_witness :
    (borrow ⟨0, 10, none, none⟩ 0
        (removeResource ⟨false, true, [(3, 0)], [3], [], 0⟩ 3).1).result
      = .error .UnknownResource ∧
    (borrow ⟨0, 10, none, none⟩ 0
        (removeResource ⟨false, true, [(3, 0)], [3], [], 0⟩ 3).1).state.outstandingBorrows
      = (removeResource ⟨false, true, [(3, 0)], [3], [], 0⟩ 3).1.outstandingBorrows ∧
    (borrow ⟨0, 10, none, none⟩ 0
        (removeResource ⟨false, true, [(3, 0)], [3], [], 0⟩ 3).1).events = [] ∧
    (borrow ⟨0, 10, none, none⟩ 0
        (removeResource ⟨false, true, [(3, 0)], [3], [], 0⟩ 3).1).state.availableResources
      = [] :=
  borrow_unknown_idle_head_throws ⟨0, 10, none, none⟩ 0
    (removeResource ⟨false, true, [(3, 0)], [3], [], 0⟩ 3).1 3 [] rfl rfl rfl

/-- C10: registering a freshly created resource that is already a key of
`knownResources` fails with the duplicate-registration error before any
mutation: the existing record (and its `created` timestamp) is untouched,
nothing is lent, and nothing is appended to the idle queue. -/
theorem addResource_duplicate_rejected (now : Nat) (s : PoolState)
    (rsc created : Nat)
    (hk : s.knownResources.lookup rsc = some created) :
    addResource now s rsc = ⟨s, [], [], .error .DuplicateResource⟩ := by
  simp [addResource, hk]

/-- The request ids fulfilled by one operation: a lend out of
`maybeLendResource` resolves exactly one queued request. -/
def lentLog (r : Except PoolError (Option Nat)) : List Nat :=
  match r with
  | .ok (some d) => [d]
  | _ => []

/-- One scheduling step of the pool: any of the engine's operations applied
at any time, together with the running log of fulfilled queued requests (in
fulfillment order).  Immediate loans made by `borrow` never concern a queued
request and do not extend the log. -/
inductive Step (o : Options) :
    PoolState × List Nat → PoolState × List Nat → Prop
  | borrowStep (now : Nat) (s : PoolState) (log : List Nat) :
      Step o (s, log) ((borrow o now s).state, log)
  | releaseStep (now : Nat) (s : PoolState) (rsc : Nat) (log : List Nat) :
      Step o (s, log)
        ((returnResource o now s rsc).state,
         log ++ lentLog (returnResource o now s rsc).result)
  | addStep (now : Nat) (s : PoolState) (rsc : Nat) (log : List Nat) :
      Step o (s, log)
        ((addResource now s rsc).state,
         log ++ lentLog (addResource now s rsc).result)
  | removeStep (s : PoolState) (rsc : Nat) (log : List Nat) :
      Step o (s, log) ((removeResource s rsc).1, log)
  | timerStep (s : PoolState) (reqId : Nat) (log : List Nat) :
      Step o (s, log) ((timerFires s reqId).1, log)
  | destroyStep (s : PoolState) (log : List Nat) :
      Step o (s, log) ((destroy s).state, log)
  | syncStep (now : Nat) (s : PoolState) (log : List Nat) :
      Step o (s, log) ((syncPass o now s).state, log)

/-- The freshly constructed pool: nothing known, nothing queued, no request
fulfilled yet. -/
def fifoInit : PoolState × List Nat := (⟨false, true, [], [], [], 0⟩, [])

/-- Configurations reachable from the fresh pool by engine steps. -/
def Reachable (o : Options) (c : PoolState × List Nat) : Prop :=
  Relation.ReflTransGen (Step o) fifoInit c

/-- How a single step can change the wait queue, the id counter and the
fulfillment log: it either shrinks the queue to a sublist without fulfilling
anything, enqueues the fresh id at the tail, or fulfills exactly the head of
the queue. -/
def StepView (s t : PoolState) (Δ : List Nat) : Prop :=
  (t.outstandingBorrows.Sublist s.outstandingBorrows ∧
   t.nextRequestId = s.nextRequestId ∧ Δ = []) ∨
  (t.outstandingBorrows = s.outstandingBorrows ++ [s.nextRequestId] ∧
   t.nextRequestId = s.nextRequestId + 1 ∧ Δ = []) ∨
  (∃ d rest, s.outstandingBorrows = d :: rest ∧
   t.outstandingBorrows = rest ∧
   t.nextRequestId = s.nextRequestId ∧ Δ = [d])

lemma stepView_unchanged {s t : PoolState} {Δ : List Nat}
    (hq : t.outstandingBorrows = s.outstandingBorrows)
    (hn : t.nextRequestId = s.nextRequestId) (hΔ : Δ = []) :
    StepView s t Δ :=
  Or.inl ⟨hq ▸ List.Sublist.refl _, hn, hΔ⟩

/-- `maybeLendResource` either parks the resource (queue untouched, nothing
fulfilled) or fulfills exactly the head of the queue. -/
lemma maybeLendResource_view (s : PoolState) (rsc : Nat) :
    ((maybeLendResource s rsc).1.outstandingBorrows = s.outstandingBorrows ∧
     (maybeLendResource s rsc).1.nextRequestId = s.nextRequestId ∧
     (maybeLendResource s rsc).2.2 = none) ∨
    (∃ d rest, s.outstandingBorrows = d :: rest ∧
     (maybeLendResource s rsc).1.outstandingBorrows = rest ∧
     (maybeLendResource s rsc).1.nextRequestId = s.nextRequestId ∧
     (maybeLendResource s rsc).2.2 = some d) := by
  cases hq : s.outstandingBorrows with
  | nil => left; simp [maybeLendResource, hq]
  | cons d rest => right; exact ⟨d, rest, rfl, by simp [maybeLendResource, hq]⟩

lemma borrow_view (o : Options) (now : Nat) (s : PoolState) :
    StepView s (borrow o now s).state [] := by
  unfold borrow
  split
  · exact stepView_unchanged rfl rfl rfl
  · split
    · exact Or.inr (Or.inl ⟨rfl, rfl, rfl⟩)
    · dsimp only
      split
      · exact stepView_unchanged rfl rfl rfl
      · exact Or.inr (Or.inl ⟨rfl, rfl, rfl⟩)
      · exact stepView_unchanged rfl rfl rfl

lemma returnResource_view (o : Options) (now : Nat) (s : PoolState)
    (rsc : Nat) :
    StepView s (returnResource o now s rsc).state
      (lentLog (returnResource o now s rsc).result) := by
  unfold returnResource
  split
  · exact stepView_unchanged rfl rfl rfl
  · split
    · exact stepView_unchanged rfl rfl rfl
    · rcases maybeLendResource_view s rsc with ⟨hq, hn, hr⟩ | ⟨d, rest, hq, hq2, hn, hr⟩
      · exact stepView_unchanged hq hn (by simp [lentLog, hr])
      · exact Or.inr (Or.inr ⟨d, rest, hq, hq2, hn, by simp [lentLog, hr]⟩)

lemma addResource_view (now : Nat) (s : PoolState) (rsc : Nat) :
    StepView s (addResource now s rsc).state
      (lentLog (addResource now s rsc).result) := by
  unfold addResource
  split
  · exact stepView_unchanged rfl rfl rfl
  · rcases maybeLendResource_view
        { s with knownResources := s.knownResources ++ [(rsc, now)] } rsc with
      ⟨hq, hn, hr⟩ | ⟨d, rest, hq, hq2, hn, hr⟩
    · exact stepView_unchanged hq hn (by simp [lentLog, hr])
    · exact Or.inr (Or.inr ⟨d, rest, hq, hq2, hn, by simp [lentLog, hr]⟩)

lemma timerFires_view (s : PoolState) (reqId : Nat) :
    StepView s (timerFires s reqId).1 [] := by
  unfold timerFires
  split
  · exact Or.inl ⟨List.eraseIdx_sublist _ _, rfl, rfl⟩
  · exact Or.inl ⟨List.dropLast_sublist _, rfl, rfl⟩

lemma destroy_view (s : PoolState) : StepView s (destroy s).state [] :=
  Or.inl ⟨List.nil_sublist _, rfl, rfl⟩

lemma syncPass_view (o : Options) (now : Nat) (s : PoolState) :
    StepView s (syncPass o now s).state [] := by
  unfold syncPass
  dsimp only
  split
  · exact stepView_unchanged rfl rfl rfl
  · split
    · exact stepView_unchanged rfl rfl rfl
    · split
      · exact Or.inl ⟨List.take_sublist _ _, rfl, rfl⟩
      · exact stepView_unchanged rfl rfl rfl

lemma step_view {o : Options} {s t : PoolState} {log log' : List Nat}
    (h : Step o (s, log) (t, log')) :
    ∃ Δ, log' = log ++ Δ ∧ StepView s t Δ := by
  cases h with
  | borrowStep now s log =>
      exact ⟨[], by simp, borrow_view o now s⟩
  | releaseStep now s rsc log =>
      exact ⟨_, rfl, returnResource_view o now s rsc⟩
  | addStep now s rsc log =>
      exact ⟨_, rfl, addResource_view now s rsc⟩
  | removeStep s rsc log =>
      exact ⟨[], by simp, stepView_unchanged rfl rfl rfl⟩
  | timerStep s reqId log =>
      exact ⟨[], by simp, timerFires_view s reqId⟩
  | destroyStep s log =>
      exact ⟨[], by simp, destroy_view s⟩
  | syncStep now s log =>
      exact ⟨[], by simp, syncPass_view o now s⟩

/-- The FIFO invariant: the fulfillment log and the wait queue are both
strictly increasing in request id (ids are issued in enqueue order), every id
in either is below the counter, and everything already fulfilled is older
than everything still waiting. -/
def Inv (c : PoolState × List Nat) : Prop :=
  c.2.Pairwise (· < ·) ∧
  c.1.outstandingBorrows.Pairwise (· < ·) ∧
  (∀ q ∈ c.1.outstandingBorrows, q < c.1.nextRequestId) ∧
  (∀ f ∈ c.2, f < c.1.nextRequestId) ∧
  (∀ f ∈ c.2, ∀ q ∈ c.1.outstandingBorrows, f < q)

lemma inv_preserved {s t : PoolState} {log Δ : List Nat}
    (hinv : Inv (s, log)) (hview : StepView s t Δ) : Inv (t, log ++ Δ) := by
  obtain ⟨hlog, hqueue, hqn, hfn, hfq⟩ := hinv
  rcases hview with ⟨hsub, hn, hΔ⟩ | ⟨hq, hn, hΔ⟩ | ⟨d, rest, hq, hq2, hn, hΔ⟩
  · subst hΔ
    rw [List.append_nil]
    refine ⟨hlog, hqueue.sublist hsub, ?_, ?_, ?_⟩
    · intro q hmem
      rw [hn]
      exact hqn q (hsub.subset hmem)
    · intro f hf
      rw [hn]
      exact hfn f hf
    · intro f hf q hmem
      exact hfq f hf q (hsub.subset hmem)
  · subst hΔ
    rw [List.append_nil]
    refine ⟨hlog, ?_, ?_, ?_, ?_⟩
    · rw [hq, List.pairwise_append]
      exact ⟨hqueue, List.pairwise_singleton _ _,
        fun a ha b hb => (List.mem_singleton.mp hb) ▸ hqn a ha⟩
    · intro q hmem
      rw [hq] at hmem
      rw [hn]
      rcases List.mem_append.mp hmem with hmem | hmem
      · exact Nat.lt_succ_of_lt (hqn q hmem)
      · exact (List.mem_singleton.mp hmem) ▸ Nat.lt_succ_self _
    · intro f hf
      rw [hn]
      exact Nat.lt_succ_of_lt (hfn f hf)
    · intro f hf q hmem
      rw [hq] at hmem
      rcases List.mem_append.mp hmem with hmem | hmem
      · exact hfq f hf q hmem
      · exact (List.mem_singleton.mp hmem) ▸ hfn f hf
  · subst hΔ
    have hdq : d ∈ s.outstandingBorrows := hq ▸ List.mem_cons_self d rest
    have hpc := List.pairwise_cons.mp (hq ▸ hqueue)
    refine ⟨?_, hq2 ▸ hpc.2, ?_, ?_, ?_⟩
    · rw [List.pairwise_append]
      exact ⟨hlog, List.pairwise_singleton _ _,
        fun a ha b hb => (List.mem_singleton.mp hb) ▸ hfq a ha d hdq⟩
    · intro q hmem
      rw [hn]
      exact hqn q (hq ▸ List.mem_cons_of_mem d (hq2 ▸ hmem))
    · intro f hf
      rw [hn]
      rcases List.mem_append.mp hf with hf | hf
      · exact hfn f hf
      · exact (List.mem_singleton.mp hf) ▸ hqn d hdq
    · intro f hf q hmem
      have hq' : q ∈ s.outstandingBorrows :=
        hq ▸ List.mem_cons_of_mem d (hq2 ▸ hmem)
      rcases List.mem_append.mp hf with hf | hf
      · exact hfq f hf q hq'
      · exact (List.mem_singleton.mp hf) ▸ hpc.1 q (hq2 ▸ hmem)

lemma reachable_inv {o : Options} {c : PoolState × List Nat}
    (h : Reachable o c) : Inv c := by
  induction h with
  | refl =>
      exact ⟨List.Pairwise.nil, List.Pairwise.nil, by simp [fifoInit],
        by simp [fifoInit], by simp [fifoInit]⟩
  | tail hr hstep ih =>
      rename_i b c'
      obtain ⟨s, log⟩ := b
      obtain ⟨t, log'⟩ := c'
      obtain ⟨Δ, hΔ, hview⟩ := step_view hstep
      exact hΔ ▸ inv_preserved ih hview

/-- C8: FIFO fulfillment.  In every reachable configuration, if request `a`
was enqueued strictly before request `b` (request ids are issued in enqueue
order, so `a < b`) and both appear in the fulfillment log, then `a` occupies
a strictly earlier position of the log than `b`: no younger request is ever
fulfilled while an older one still waits, because every lend shifts the
oldest element of the wait queue. -/
theorem fifo_fulfillment (o : Options) (c : PoolState × List Nat)
    (hreach : Reachable o c) (a b : Nat) (hab : a < b)
    (ha : a ∈ c.2) (hb : b ∈ c.2) :
    ∃ i j : Nat, i < j ∧ c.2[i]? = some a ∧ c.2[j]? = some b := by
  have hlog : c.2.Pairwise (· < ·) := (reachable_inv hreach).1
  obtain ⟨i, hi, hia⟩ := List.mem_iff_getElem.mp ha
  obtain ⟨j, hj, hjb⟩ := List.mem_iff_getElem.mp hb
  have hpg := List.pairwise_iff_getElem.mp hlog
  have hia' : c.2[i]? = some a := by rw [List.getElem?_eq_getElem hi, hia]
  have hjb' : c.2[j]? = some b := by rw [List.getElem?_eq_getElem hj, hjb]
  refine ⟨i, j, ?_, hia', hjb'⟩
  rcases Nat.lt_trichotomy i j with h | h | h
  · exact h
  · exfalso
    rw [h] at hia'
    rw [hia'] at hjb'
    exact Nat.ne_of_lt hab (Option.some.inj hjb')
  · exfalso
    have hba := hpg j i hj hi h
    rw [hia, hjb] at hba
    exact Nat.lt_asymm hab hba

/-- C8 witness: a concrete trace — two borrows enqueue requests 0 and 1, then
two completed creations fulfill them in order — reaches fulfillment log
`[0, 1]`, where the older request indeed sits at the earlier position. -/
theorem fifo_fulfillment_witness :
    ∃ i j : Nat, i < j ∧ ([0, 1] : List Nat)[i]? = some 0 ∧
      ([0, 1] : List Nat)[j]? = some 1 := by
  have h1 : Step ⟨0, 10, none, none⟩ fifoInit
      ((⟨false, true, [], [], [0], 1⟩ : PoolState), []) :=
    Step.borrowStep 0 fifoInit.1 []
  have h2 : Step ⟨0, 10, none, none⟩
      ((⟨false, true, [], [], [0], 1⟩ : PoolState), [])
      ((⟨false, true, [], [], [0, 1], 2⟩ : PoolState), []) :=
    Step.borrowStep 0 ⟨false, true, [], [], [0], 1⟩ []
  have h3 : Step ⟨0, 10, none, none⟩
      ((⟨false, true, [], [], [0, 1], 2⟩ : PoolState), [])
      ((⟨false, true, [(10, 0)], [], [1], 2⟩ : PoolState), [0]) :=
    Step.addStep 0 ⟨false, true, [], [], [0, 1], 2⟩ 10 []
  have h4 : Step ⟨0, 10, none, none⟩
      ((⟨false, true, [(10, 0)], [], [1], 2⟩ : PoolState), [0])
      ((⟨false, true, [(10, 0), (11, 0)], [], [], 2⟩ : PoolState), [0, 1]) :=
    Step.addStep 0 ⟨false, true, [(10, 0)], [], [1], 2⟩ 11 [0]
  have hreach : Reachable ⟨0, 10, none, none⟩
      ((⟨false, true, [(10, 0), (11, 0)], [], [], 2⟩ : PoolState), [0, 1]) :=
    ((((Relation.ReflTransGen.refl.tail h1).tail h2).tail h3).tail h4)
  exact fifo_fulfillment ⟨0, 10, none, none⟩
    ((⟨false, true, [(10, 0), (11, 0)], [], [], 2⟩ : PoolState), [0, 1])
    hreach 0 1 (by decide) (by decide) (by decide)

/-- C10 witness: duplicate registration of resource 1 at a concrete pool. -/
theorem addResource_duplicate_rejected_witness :
    addResource 50 ⟨false, true, [(1, 7)], [1], [], 0⟩ 1
      = ⟨⟨false, true, [(1, 7)], [1], [], 0⟩, [], [],
         .error .DuplicateResource⟩ :=
  addResource_duplicate_rejected 50 ⟨false, true, [(1, 7)], [1], [], 0⟩ 1 7 rfl

end TsPool
